import Mathlib

/-!
Verification of the Voice-Task-Manager session manager (`useLiveManager`)
and its task-creation handler, as a shallow embedding.

State effects of the TypeScript hooks are embedded as pure functions on an
explicit state record; external side effects (closing audio contexts,
stopping microphone tracks, the network send itself) live outside the
state, while the refs, React state flags, playback cursor and active-sound
set are fields.  Times and durations are rationals.
-/

namespace VoiceTasks

/-- Argument payload of the `createTask` tool (`TaskToolArgs` in
`types.ts`): required `title`, three optional string fields. -/
structure TaskToolArgs where
  title : String
  date : Option String
  time : Option String
  priority : Option String
deriving DecidableEq

/-- One task of the task list (`Task` in `types.ts`).  The priority and
status unions are embedded as plain strings. -/
structure Task where
  id : String
  title : String
  date : Option String
  time : Option String
  priority : String
  status : String
  createdAt : Nat
deriving DecidableEq

/-- An inbound function call of a `toolCall` message: correlation id,
tool name and argument payload. -/
structure FunctionCall where
  id : String
  name : String
  args : TaskToolArgs
deriving DecidableEq

/-- Observable outcome of running the `onmessage` tool-call loop:
the argument payloads passed to `onTaskCreated` in order, the tool
responses handed to `session.sendToolResponse` as (id, name, result)
triples, the `console.log` lines emitted, and whether the external
callback raised (aborting the handler). -/
structure DispatchOut where
  invoked : List TaskToolArgs
  sent : List (String × String × String)
  logs : List String
  threw : Bool
deriving DecidableEq

/-- The `for (const fc of message.toolCall.functionCalls)` loop of
`useLiveManager.onmessage`.  For a call named `createTask` the code logs,
invokes `onTaskCreated(fc.args)` synchronously, and then registers the
`sendToolResponse` continuation; there is no `try`/`catch`, so if the
callback raises, the exception propagates out of the async handler:
no response is registered for that call and the remaining calls of the
message are not processed.  `callbackThrows args = true` models the
external callback raising on `args`.  Calls with any other name are
skipped with no effect at all. -/
def dispatchCalls (callbackThrows : TaskToolArgs → Bool) :
    List FunctionCall → DispatchOut
  | [] => ⟨[], [], [], false⟩
  | fc :: rest =>
    if fc.name = "createTask" then
      if callbackThrows fc.args then
        ⟨[fc.args], [], ["Tool call received:"], true⟩
      else
        let out := dispatchCalls callbackThrows rest
        ⟨fc.args :: out.invoked,
         (fc.id, fc.name, "Task created successfully") :: out.sent,
         "Tool call received:" :: out.logs,
         out.threw⟩
    else
      dispatchCalls callbackThrows rest

/-- `handleCreateTask` of `App.tsx`: builds the new task and prepends it
to the list.  `(args.priority as Priority) || 'Medium'` defaults the
priority exactly when the field is absent (`undefined`) or the empty
string, the only falsy string values; `crypto.randomUUID()` and
`Date.now()` are passed in as `freshId` and `now`. -/
def handleCreateTask (args : TaskToolArgs) (freshId : String) (now : Nat)
    (prev : List Task) : List Task :=
  { id := freshId
    title := args.title
    date := args.date
    time := args.time
    priority :=
      match args.priority with
      | none => "Medium"
      | some p => if p = "" then "Medium" else p
    status := "pending"
    createdAt := now } :: prev

/-- Lifecycle phase of the single live session, per the spec's state
machine: `idle` (no resources), `connecting` (between `connect()` and
`onopen`), `opened` (the spec's Open state).  `Closing` is transient in
the code (`disconnect` runs synchronously) and is not a resting phase. -/
inductive Phase where
  | idle
  | connecting
  | opened
deriving DecidableEq

/-- State of `useLiveManager`: the React flags (`isConnected`,
`isTalking`, `volume`), the refs (`nextStartTimeRef` playback cursor,
`sourcesRef` active-sound set as a duplicate-free list of node ids,
`sessionPromiseRef`, `streamRef`, `processorRef`, the two audio-context
refs, each a resource id when held), the lifecycle phase, and a ghost
counter of sessions created so far (never read by the code). -/
structure LMState where
  phase : Phase
  isConnected : Bool
  isTalking : Bool
  volume : ℚ
  nextStartTime : ℚ
  sources : List Nat
  session : Option Nat
  stream : Option Nat
  processor : Option Nat
  inputContext : Option Nat
  audioContext : Option Nat
  sessionsCreated : Nat
deriving DecidableEq

/-- The state before any hook runs: every ref null, flags cleared. -/
def initState : LMState :=
  { phase := .idle
    isConnected := false
    isTalking := false
    volume := 0
    nextStartTime := 0
    sources := []
    session := none
    stream := none
    processor := none
    inputContext := none
    audioContext := none
    sessionsCreated := 0 }

/-- `disconnect` of `useLiveManager`.  The code closes the pending
session, stops the microphone tracks, disconnects the processor node and
closes both audio contexts (each step guarded by a null check whose false
branch leaves the already-null ref untouched), then nulls every ref,
clears `isConnected`, `isTalking` and `volume`, empties the active-sound
set and zeroes the cursor; the net state effect is this record update.
The `stop`/`close`/`disconnect` calls themselves are external effects. -/
def disconnect (st : LMState) : LMState :=
  { st with
    phase := .idle
    isConnected := false
    isTalking := false
    volume := 0
    nextStartTime := 0
    sources := []
    session := none
    stream := none
    processor := none
    inputContext := none
    audioContext := none }

/-- `connect` of `useLiveManager`, up to the point where every ref is
populated (the successful acquisition path).  Its only guard is
`if (isConnected) return`: when it passes, fresh output and input audio
contexts, a microphone stream, a processor node and a new live session
are created and stored, overwriting whatever the refs held.  The ghost
counter records the session creation. -/
def connectStart (st : LMState) (audioId inputId micId procId sessId : Nat) :
    LMState :=
  if st.isConnected then st
  else
    { st with
      phase := .connecting
      audioContext := some audioId
      inputContext := some inputId
      stream := some micId
      processor := some procId
      session := some sessId
      sessionsCreated := st.sessionsCreated + 1 }

/-- The `onopen` callback: logs and sets `isConnected` to true, moving
the lifecycle to Open.  It touches nothing else — in particular not the
playback cursor. -/
def onopen (st : LMState) : LMState :=
  { st with phase := .opened, isConnected := true }

/-- `Set.add` of the JavaScript `sourcesRef` set: inserts if absent. -/
def setAdd (s : List Nat) (x : Nat) : List Nat :=
  if x ∈ s then s else x :: s

/-- `Set.delete` of the JavaScript `sourcesRef` set. -/
def setDelete (s : List Nat) (x : Nat) : List Nat :=
  s.erase x

/-- The audio branch of `onmessage` for one inbound frame, guarded by
`base64Audio && audioContextRef.current`.  In code order: set `isTalking`
true; bump the cursor to `max(nextStartTime, ctx.currentTime)`; decode
(`dec = none` models `decodeAudioData` rejecting, which aborts the rest
of the handler); on success create a source node `sid`, schedule it at
the bumped cursor, add it to the active set and advance the cursor by the
buffer's duration.  `now` is `ctx.currentTime` at this invocation.
Returns the new state and the scheduled (startTime, duration), if any. -/
def handleAudio (st : LMState) (now : ℚ) (dec : Option ℚ) (sid : Nat) :
    LMState × Option (ℚ × ℚ) :=
  match st.audioContext with
  | none => (st, none)
  | some _ =>
    let bumped := max st.nextStartTime now
    match dec with
    | none => ({ st with isTalking := true, nextStartTime := bumped }, none)
    | some dur =>
      ({ st with
          isTalking := true
          sources := setAdd st.sources sid
          nextStartTime := bumped + dur },
       some (bumped, dur))

/-- The `ended` listener of a scheduled source node: remove the node from
the active set; if the set is now empty, clear `isTalking`. -/
def handleEnded (st : LMState) (sid : Nat) : LMState :=
  { st with
    sources := setDelete st.sources sid
    isTalking := if (setDelete st.sources sid).isEmpty then false else st.isTalking }

/-- One inbound audio event: the output clock at handling time, the
decode outcome (duration, or `none` for a decode failure), and the id of
the source node that would be created. -/
structure AudioEv where
  now : ℚ
  dec : Option ℚ
  sid : Nat

/-- Decidable check that an event's decoded duration, if any, is
non-negative (audio buffers have non-negative duration). -/
def durOk (e : AudioEv) : Bool :=
  match e.dec with
  | none => true
  | some d => decide (0 ≤ d)

/-- Handle a sequence of inbound audio frames in arrival order,
collecting the scheduled (startTime, duration) pairs. -/
def runAudio (st : LMState) : List AudioEv → LMState × List (ℚ × ℚ)
  | [] => (st, [])
  | e :: rest =>
    let step := handleAudio st e.now e.dec e.sid
    let tail := runAudio step.1 rest
    (tail.1, step.2.toList ++ tail.2)

/-- States reachable by the event callbacks of the single live session:
the initial render, a `connect()` call, the session's `onopen`, an
inbound audio frame while Open, an `ended` event of a source node, and
`disconnect()` (also run by `onclose` and `onerror`). -/
inductive Reachable : LMState → Prop where
  | init : Reachable initState
  | connect (st : LMState) (a i m p s : Nat) :
      Reachable st → Reachable (connectStart st a i m p s)
  | sessionOpen (st : LMState) :
      Reachable st → st.phase = .connecting → Reachable (onopen st)
  | audio (st : LMState) (now : ℚ) (dec : Option ℚ) (sid : Nat) :
      Reachable st → st.phase = .opened →
      Reachable (handleAudio st now dec sid).1
  | ended (st : LMState) (sid : Nat) :
      Reachable st → Reachable (handleEnded st sid)
  | close (st : LMState) : Reachable st → Reachable (disconnect st)

/-- A state holds zero resources and cleared observables: the spec's
Idle state. -/
def isIdleState (st : LMState) : Prop :=
  st.phase = .idle ∧ st.isConnected = false ∧ st.isTalking = false ∧
  st.volume = 0 ∧ st.nextStartTime = 0 ∧ st.sources = [] ∧
  st.session = none ∧ st.stream = none ∧ st.processor = none ∧
  st.inputContext = none ∧ st.audioContext = none

/-- Valid `createTask` payload used by the spec's test property. -/
def buyMilkArgs : TaskToolArgs :=
  ⟨"Buy milk", some "2025-03-10", none, some "High"⟩

/-- A `createTask` tool call carrying `buyMilkArgs`. -/
def buyMilkCall : FunctionCall := ⟨"call-1", "createTask", buyMilkArgs⟩

/-- A tool call whose name matches no registered tool. -/
def unknownCall : FunctionCall := ⟨"call-2", "deleteTask", buyMilkArgs⟩

/-- The state right after a successful `connect()` from the initial
state, before `onopen` has fired: the Connecting state. -/
def stConnecting : LMState := connectStart initState 0 1 2 3 4

/-- The Open state: `stConnecting` after `onopen`. -/
def stOpen : LMState := onopen stConnecting

/-- Claim C4: for an inbound ToolCall named `createTask` whose external
callback returns normally, the callback is invoked exactly once with
exactly that payload and exactly one ToolResult carrying the call's
correlation id (and the fixed success payload) is sent on the session. -/
theorem C4_createTask_dispatch (fc : FunctionCall)
    (callbackThrows : TaskToolArgs → Bool)
    (hname : fc.name = "createTask") (hcb : callbackThrows fc.args = false) :
    dispatchCalls callbackThrows [fc] =
      ⟨[fc.args], [(fc.id, fc.name, "Task created successfully")],
       ["Tool call received:"], false⟩ := by
  simp [dispatchCalls, hname, hcb]

/-- Claim C4, witness: the spec's concrete payload
`{title: "Buy milk", date: "2025-03-10", priority: "High"}`. -/
theorem C4_witness :
    buyMilkCall.name = "createTask" ∧
    (fun _ : TaskToolArgs => false) buyMilkCall.args = false ∧
    dispatchCalls (fun _ => false) [buyMilkCall] =
      ⟨[buyMilkArgs], [("call-1", "createTask", "Task created successfully")],
       ["Tool call received:"], false⟩ :=
  ⟨rfl, rfl, C4_createTask_dispatch buyMilkCall (fun _ => false) rfl rfl⟩

/-- Claim C2, code evaluated at the failing input: when the external
callback raises on a `createTask` call, the handler aborts before the
`sendToolResponse` continuation is registered, so NO ToolResult is sent
for that call — contradicting the claim (and spec §7), which requires
exactly one ToolResult regardless of callback failure. -/
theorem C2_callback_throw_drops_result :
    (dispatchCalls (fun _ => true) [buyMilkCall]).sent = [] ∧
    (dispatchCalls (fun _ => true) [buyMilkCall]).invoked = [buyMilkArgs] ∧
    (dispatchCalls (fun _ => true) [buyMilkCall]).threw = true :=
  ⟨rfl, rfl, rfl⟩

/-- Claim C9, counterexample: for a single inbound ToolCall with an
unmatched name, the code invokes no callback and sends no result, but it
also logs NOTHING (the `console.log` sits inside the `createTask`
branch), so the claim's conjunct "the event is logged" fails. -/
theorem C9_counterexample :
    ¬ ((dispatchCalls (fun _ => false) [unknownCall]).invoked = [] ∧
       (dispatchCalls (fun _ => false) [unknownCall]).sent = [] ∧
       (dispatchCalls (fun _ => false) [unknownCall]).logs ≠ []) := by
  intro h
  exact h.2.2 rfl

/-- Claim C9 as amended: an inbound ToolCall whose name is not
`createTask` is skipped entirely — no callback invocation, no ToolResult,
no log line — and processing continues exactly as if the call were
absent. -/
theorem C9_unmatched_skipped (callbackThrows : TaskToolArgs → Bool)
    (fc : FunctionCall) (rest : List FunctionCall)
    (hname : fc.name ≠ "createTask") :
    dispatchCalls callbackThrows (fc :: rest) = dispatchCalls callbackThrows rest ∧
    (dispatchCalls callbackThrows [fc]).invoked = [] ∧
    (dispatchCalls callbackThrows [fc]).sent = [] ∧
    (dispatchCalls callbackThrows [fc]).logs = [] := by
  refine ⟨?_, ?_, ?_, ?_⟩ <;> simp [dispatchCalls, hname]

/-- Claim C9, witness: an unmatched call followed by a `createTask`
call is dispatched exactly like the `createTask` call alone. -/
theorem C9_witness :
    unknownCall.name ≠ "createTask" ∧
    dispatchCalls (fun _ => false) [unknownCall, buyMilkCall] =
      dispatchCalls (fun _ => false) [buyMilkCall] ∧
    (dispatchCalls (fun _ => false) [unknownCall]).logs = [] :=
  ⟨by decide,
   (C9_unmatched_skipped (fun _ => false) unknownCall [buyMilkCall] (by decide)).1,
   (C9_unmatched_skipped (fun _ => false) unknownCall [buyMilkCall] (by decide)).2.2.2⟩

/-- Claim C10: the task built from a delivered payload has priority
`Medium` whenever the payload's priority is absent or empty, always has
status `pending`, carries the fresh id (unique among existing ids when
the generator is fresh), and is prepended to the list with every
existing task untouched. -/
theorem C10_created_task_shape (args : TaskToolArgs) (freshId : String)
    (now : Nat) (prev : List Task) (hfresh : freshId ∉ prev.map Task.id) :
    ∃ t : Task,
      handleCreateTask args freshId now prev = t :: prev ∧
      t.id = freshId ∧
      t.title = args.title ∧
      t.status = "pending" ∧
      ((args.priority = none ∨ args.priority = some "") →
        t.priority = "Medium") ∧
      t.id ∉ prev.map Task.id := by
  refine ⟨_, rfl, rfl, rfl, rfl, ?_, hfresh⟩
  rintro (h | h) <;> simp [h]

/-- Claim C10, witness: a payload with no priority lands as a pending
`Medium` task prepended to the empty list. -/
theorem C10_witness :
    ("id-9" ∉ ([] : List Task).map Task.id) ∧
    ∃ t : Task,
      handleCreateTask ⟨"Buy milk", none, none, none⟩ "id-9" 5 [] = t :: [] ∧
      t.id = "id-9" ∧
      t.title = (⟨"Buy milk", none, none, none⟩ : TaskToolArgs).title ∧
      t.status = "pending" ∧
      (((⟨"Buy milk", none, none, none⟩ : TaskToolArgs).priority = none ∨
        (⟨"Buy milk", none, none, none⟩ : TaskToolArgs).priority = some "") →
        t.priority = "Medium") ∧
      t.id ∉ ([] : List Task).map Task.id :=
  ⟨by simp, C10_created_task_shape ⟨"Buy milk", none, none, none⟩ "id-9" 5 [] (by simp)⟩

/-- Claim C5: `disconnect()` from any state terminates in the Idle state
with zero held resources (modelled as a total function, it cannot
raise), and a second `disconnect()` changes nothing. -/
theorem C5_disconnect_idle_idempotent (st : LMState) :
    isIdleState (disconnect st) ∧ disconnect (disconnect st) = disconnect st :=
  ⟨⟨rfl, rfl, rfl, rfl, rfl, rfl, rfl, rfl, rfl, rfl, rfl⟩, rfl⟩

/-- Claim C6, counterexample: in the Connecting state (the guard
`if (isConnected) return` has not yet been satisfied because `onopen`
has not fired), a second `connect()` is NOT a no-op — it proceeds,
creating a second session and overwriting the held resources. -/
theorem C6_counterexample :
    connectStart stConnecting 10 11 12 13 14 ≠ stConnecting ∧
    (connectStart stConnecting 10 11 12 13 14).sessionsCreated =
      stConnecting.sessionsCreated + 1 := by
  refine ⟨?_, rfl⟩
  decide

/-- Claim C6 as amended: `connect()` is a no-op exactly when
`isConnected` is already true (the Open state): no second session, no
new resources, all state unchanged.  While Connecting the guard does not
fire. -/
theorem C6_connect_noop_when_open (st : LMState) (a i m p s : Nat)
    (h : st.isConnected = true) :
    connectStart st a i m p s = st := by
  simp [connectStart, h]

/-- Claim C6, witness: a second `connect()` in the Open state leaves the
state untouched. -/
theorem C6_witness :
    stOpen.isConnected = true ∧ connectStart stOpen 10 11 12 13 14 = stOpen :=
  ⟨rfl, C6_connect_noop_when_open stOpen 10 11 12 13 14 rfl⟩

/-- `handleAudio` never touches the output audio-context ref. -/
lemma handleAudio_audioContext (st : LMState) (now : ℚ) (dec : Option ℚ)
    (sid : Nat) :
    (handleAudio st now dec sid).1.audioContext = st.audioContext := by
  cases hc : st.audioContext <;> cases dec <;> simp [handleAudio, hc]

/-- Invariants of all states reachable by the session's callbacks: the
Open phase coincides with `isConnected`; outside Open the playback
cursor is 0; outside Idle the output audio context is held; and
`isTalking` is true whenever the active-sound set is non-empty. -/
lemma reachable_inv {st : LMState} (h : Reachable st) :
    (st.phase = .opened ↔ st.isConnected = true) ∧
    (st.phase ≠ .opened → st.nextStartTime = 0) ∧
    (st.phase ≠ .idle → st.audioContext.isSome = true) ∧
    (st.sources ≠ [] → st.isTalking = true) := by
  induction h with
  | init => simp [initState]
  | connect st a i m p s _ ih =>
    obtain ⟨ih1, ih2, ih3, ih4⟩ := ih
    by_cases hc : st.isConnected = true
    · have hnoop : connectStart st a i m p s = st := by simp [connectStart, hc]
      rw [hnoop]
      exact ⟨ih1, ih2, ih3, ih4⟩
    · have hcur : st.nextStartTime = 0 := ih2 (fun hop => hc (ih1.mp hop))
      refine ⟨?_, ?_, ?_, ?_⟩
      · simp [connectStart, hc]
      · intro _
        simpa [connectStart, hc] using hcur
      · intro _
        simp [connectStart, hc]
      · simpa [connectStart, hc] using ih4
  | sessionOpen st _ hph ih =>
    obtain ⟨ih1, ih2, ih3, ih4⟩ := ih
    refine ⟨by simp [onopen], by simp [onopen], ?_, ?_⟩
    · intro _
      simpa [onopen] using ih3 (by simp [hph])
    · simpa [onopen] using ih4
  | audio st now dec sid _ hph ih =>
    obtain ⟨ih1, ih2, ih3, ih4⟩ := ih
    have hct : st.isConnected = true := ih1.mp hph
    obtain ⟨c, hc⟩ := Option.isSome_iff_exists.mp (ih3 (by simp [hph]))
    cases dec <;> refine ⟨?_, ?_, ?_, ?_⟩ <;> simp [handleAudio, hc, hph, hct]
  | ended st sid _ ih =>
    obtain ⟨ih1, ih2, ih3, ih4⟩ := ih
    refine ⟨by simpa [handleEnded] using ih1, by simpa [handleEnded] using ih2,
            by simpa [handleEnded] using ih3, ?_⟩
    intro hne
    have hne' : setDelete st.sources sid ≠ [] := by
      simpa [handleEnded] using hne
    have he : (setDelete st.sources sid).isEmpty = false := by
      cases h' : setDelete st.sources sid with
      | nil => exact absurd h' hne'
      | cons a l => rfl
    have hsrc : st.sources ≠ [] := by
      intro h0
      exact hne' (by simp [setDelete, h0])
    simp [handleEnded, he, ih4 hsrc]
  | close st _ _ =>
    refine ⟨?_, ?_, ?_, ?_⟩ <;> simp [disconnect]

/-- Claim C7: whenever the session transitions to Connected (the
`onopen` callback fires, which happens from the Connecting phase), the
playback cursor equals 0 — so the first frame of the session starts at
the current output time, never at a stale cursor. -/
theorem C7_cursor_zero_at_open (st : LMState) (hr : Reachable st)
    (hph : st.phase = .connecting) :
    (onopen st).isConnected = true ∧ (onopen st).phase = .opened ∧
    (onopen st).nextStartTime = 0 := by
  obtain ⟨-, ih2, -, -⟩ := reachable_inv hr
  exact ⟨rfl, rfl, by simpa [onopen] using ih2 (by simp [hph])⟩

/-- Claim C7, witness: the Connecting state reached by `connect()` from
the initial render opens with a zero cursor. -/
theorem C7_witness :
    Reachable stConnecting ∧ stConnecting.phase = .connecting ∧
    ((onopen stConnecting).isConnected = true ∧
     (onopen stConnecting).phase = .opened ∧
     (onopen stConnecting).nextStartTime = 0) :=
  ⟨Reachable.connect initState 0 1 2 3 4 Reachable.init, rfl,
   C7_cursor_zero_at_open stConnecting
     (Reachable.connect initState 0 1 2 3 4 Reachable.init) rfl⟩

/-- Claim C8: in every reachable state, `isTalking` is true whenever the
active-sound set is non-empty; and whenever an `ended` event empties the
set, its handler clears `isTalking` in the same event-loop turn. -/
theorem C8_talking_tracks_active_set (st : LMState) (hr : Reachable st) :
    (st.sources ≠ [] → st.isTalking = true) ∧
    ∀ sid : Nat, (handleEnded st sid).sources = [] →
      (handleEnded st sid).isTalking = false := by
  refine ⟨(reachable_inv hr).2.2.2, ?_⟩
  intro sid hempty
  have h : setDelete st.sources sid = [] := by
    simpa [handleEnded] using hempty
  simp [handleEnded, h]

/-- The Open state with one scheduled buffer still playing. -/
def stTalking : LMState := (handleAudio stOpen 0 (some 1) 7).1

/-- `stTalking` is reachable: connect, open, one decoded frame. -/
lemma stTalking_reachable : Reachable stTalking :=
  Reachable.audio stOpen 0 (some 1) 7
    (Reachable.sessionOpen stConnecting
      (Reachable.connect initState 0 1 2 3 4 Reachable.init) rfl) rfl

/-- Claim C8, witness: with one active source, `isTalking` is true, and
the `ended` event of that source empties the set and clears it. -/
theorem C8_witness :
    Reachable stTalking ∧ stTalking.sources ≠ [] ∧
    stTalking.isTalking = true ∧
    (handleEnded stTalking 7).sources = [] ∧
    (handleEnded stTalking 7).isTalking = false :=
  ⟨stTalking_reachable, by decide,
   (C8_talking_tracks_active_set stTalking stTalking_reachable).1 (by decide),
   by decide,
   (C8_talking_tracks_active_set stTalking stTalking_reachable).2 7 (by decide)⟩

/-- Core scheduling invariant: running any sequence of inbound audio
events with non-negative decoded durations from a state holding the
output context yields a schedule in which each buffer starts no earlier
than the previous buffer's start plus its duration (and hence no earlier
than the previous start), and every start is at or after the starting
cursor with a non-negative duration. -/
lemma runAudio_sched (evs : List AudioEv) (st : LMState)
    (hctx : st.audioContext.isSome = true)
    (hd : ∀ e ∈ evs, durOk e = true) :
    List.Chain' (fun b1 b2 : ℚ × ℚ => b1.1 + b1.2 ≤ b2.1 ∧ b1.1 ≤ b2.1)
      (runAudio st evs).2 ∧
    ∀ b ∈ (runAudio st evs).2, st.nextStartTime ≤ b.1 ∧ 0 ≤ b.2 := by
  induction evs generalizing st with
  | nil => simp [runAudio]
  | cons e rest ih =>
    obtain ⟨c, hc⟩ := Option.isSome_iff_exists.mp hctx
    have hctx' : (handleAudio st e.now e.dec e.sid).1.audioContext.isSome = true := by
      rw [handleAudio_audioContext]
      exact hctx
    have hdrest : ∀ e' ∈ rest, durOk e' = true :=
      fun e' he' => hd e' (List.mem_cons_of_mem _ he')
    obtain ⟨ihc, ihb⟩ := ih (handleAudio st e.now e.dec e.sid).1 hctx' hdrest
    cases hdec : e.dec with
    | none =>
      have hstep : handleAudio st e.now e.dec e.sid =
          ({ st with
              isTalking := true
              nextStartTime := max st.nextStartTime e.now }, none) := by
        simp [handleAudio, hc, hdec]
      rw [hstep] at ihc ihb
      constructor
      · simpa [runAudio, hstep] using ihc
      · intro b hb
        have hb' : b ∈ (runAudio { st with
            isTalking := true
            nextStartTime := max st.nextStartTime e.now } rest).2 := by
          simpa [runAudio, hstep] using hb
        obtain ⟨h1, h2⟩ := ihb b hb'
        exact ⟨le_trans (le_max_left _ _) h1, h2⟩
    | some d =>
      have hd0 : (0 : ℚ) ≤ d := by
        have := hd e (List.mem_cons_self e rest)
        simpa [durOk, hdec] using this
      have hstep : handleAudio st e.now e.dec e.sid =
          ({ st with
              isTalking := true
              sources := setAdd st.sources e.sid
              nextStartTime := max st.nextStartTime e.now + d },
           some (max st.nextStartTime e.now, d)) := by
        simp [handleAudio, hc, hdec]
      rw [hstep] at ihc ihb
      have hout : (runAudio st (e :: rest)).2 =
          (max st.nextStartTime e.now, d) ::
            (runAudio { st with
              isTalking := true
              sources := setAdd st.sources e.sid
              nextStartTime := max st.nextStartTime e.now + d } rest).2 := by
        simp [runAudio, hstep]
      rw [hout]
      constructor
      · rw [List.chain'_cons']
        refine ⟨?_, ihc⟩
        intro b hb
        have hmem : b ∈ (runAudio { st with
            isTalking := true
            sources := setAdd st.sources e.sid
            nextStartTime := max st.nextStartTime e.now + d } rest).2 :=
          List.mem_of_mem_head? hb
        obtain ⟨h1, -⟩ := ihb b hmem
        exact ⟨h1, le_trans (le_add_of_nonneg_right hd0) h1⟩
      · intro b hb
        rcases List.mem_cons.mp hb with hb | hb
        · rw [hb]
          exact ⟨le_max_left _ _, hd0⟩
        · obtain ⟨h1, h2⟩ := ihb b hb
          have h1' : max st.nextStartTime e.now + d ≤ b.1 := h1
          have hle : st.nextStartTime ≤ max st.nextStartTime e.now :=
            le_max_left _ _
          have hle2 : max st.nextStartTime e.now ≤
              max st.nextStartTime e.now + d := le_add_of_nonneg_right hd0
          exact ⟨le_trans hle (le_trans hle2 h1'), h2⟩

/-- Claim C1: while Open (the output context is held), every
successfully decoded frame is scheduled to start at
`max(cursor, currentOutputTime)` and the cursor then advances by exactly
that buffer's duration; consequently, over any event sequence with
non-negative durations, scheduled start times are non-decreasing and no
two scheduled buffers overlap (each start ≥ previous start + previous
duration). -/
theorem C1_gapless_ordered_schedule (st : LMState) (evs : List AudioEv)
    (now d : ℚ) (sid : Nat) (hctx : st.audioContext.isSome = true)
    (hd : ∀ e ∈ evs, durOk e = true) :
    (handleAudio st now (some d) sid).2 = some (max st.nextStartTime now, d) ∧
    (handleAudio st now (some d) sid).1.nextStartTime =
      max st.nextStartTime now + d ∧
    List.Chain' (fun b1 b2 : ℚ × ℚ => b1.1 + b1.2 ≤ b2.1)
      (runAudio st evs).2 ∧
    List.Chain' (fun b1 b2 : ℚ × ℚ => b1.1 ≤ b2.1) (runAudio st evs).2 := by
  obtain ⟨c, hc⟩ := Option.isSome_iff_exists.mp hctx
  obtain ⟨hchain, -⟩ := runAudio_sched evs st hctx hd
  exact ⟨by simp [handleAudio, hc], by simp [handleAudio, hc],
         hchain.imp fun a b h => h.1, hchain.imp fun a b h => h.2⟩

/-- Concrete inbound traffic: three decodable frames (one arriving
while the previous is still playing, one after a long idle gap) and one
frame whose decode fails. -/
def evsW : List AudioEv :=
  [⟨0, some 1, 5⟩, ⟨(1 : ℚ) / 2, some 2, 6⟩, ⟨2, none, 7⟩, ⟨10, some 1, 8⟩]

/-- Claim C1, witness: the schedule produced from the Open state by the
concrete event list is gapless-ordered. -/
theorem C1_witness :
    stOpen.audioContext.isSome = true ∧
    (∀ e ∈ evsW, durOk e = true) ∧
    ((handleAudio stOpen 3 (some 2) 9).2 =
      some (max stOpen.nextStartTime 3, 2) ∧
     (handleAudio stOpen 3 (some 2) 9).1.nextStartTime =
      max stOpen.nextStartTime 3 + 2 ∧
     List.Chain' (fun b1 b2 : ℚ × ℚ => b1.1 + b1.2 ≤ b2.1)
       (runAudio stOpen evsW).2 ∧
     List.Chain' (fun b1 b2 : ℚ × ℚ => b1.1 ≤ b2.1)
       (runAudio stOpen evsW).2) :=
  ⟨rfl, by decide, C1_gapless_ordered_schedule stOpen evsW 3 2 9 rfl (by decide)⟩

/-- Claim C3, counterexample: a decode failure handled while the output
clock is ahead of the cursor DOES alter the playback cursor — the
`max(cursor, currentTime)` bump precedes the decode, so the failing
frame raises the cursor from 0 to 5 here. -/
theorem C3_counterexample :
    (handleAudio stOpen 5 none 9).1.nextStartTime ≠ stOpen.nextStartTime := by
  have hctx : stOpen.audioContext = some 0 := rfl
  have hst : stOpen.nextStartTime = 0 := rfl
  rw [hst]
  simp only [handleAudio, hctx, hst]
  rw [max_eq_right (by norm_num : (0 : ℚ) ≤ 5)]
  norm_num

/-- Claim C3 as amended: a decode failure schedules no buffer and leaves
the active set alone, but the cursor is bumped to
`max(cursor, currentOutputTime)` before the decode is attempted rather
than left unchanged; with a non-decreasing output clock this is
harmless — handling any later frame from the post-failure state gives
exactly the same result as handling it with the failed frame never
having arrived (`isTalking` aside, which the branch has already set). -/
theorem C3_decode_failure_drops_frame (st : LMState) (now now' : ℚ)
    (dec' : Option ℚ) (sid sid' : Nat)
    (hctx : st.audioContext.isSome = true) (hmono : now ≤ now') :
    (handleAudio st now none sid).2 = none ∧
    (handleAudio st now none sid).1.sources = st.sources ∧
    (handleAudio st now none sid).1.nextStartTime = max st.nextStartTime now ∧
    handleAudio (handleAudio st now none sid).1 now' dec' sid' =
      handleAudio { st with isTalking := true } now' dec' sid' := by
  obtain ⟨c, hc⟩ := Option.isSome_iff_exists.mp hctx
  have hmax : max (max st.nextStartTime now) now' = max st.nextStartTime now' := by
    rw [max_assoc, max_eq_right hmono]
  refine ⟨by simp [handleAudio, hc], by simp [handleAudio, hc],
          by simp [handleAudio, hc], ?_⟩
  cases dec' <;> simp [handleAudio, hc, hmax]

/-- Claim C3, witness: a failing frame at clock 2 followed by a
successful frame at clock 3 behaves as if only the successful frame had
arrived. -/
theorem C3_witness :
    stOpen.audioContext.isSome = true ∧ (2 : ℚ) ≤ 3 ∧
    ((handleAudio stOpen 2 none 9).2 = none ∧
     (handleAudio stOpen 2 none 9).1.sources = stOpen.sources ∧
     (handleAudio stOpen 2 none 9).1.nextStartTime =
       max stOpen.nextStartTime 2 ∧
     handleAudio (handleAudio stOpen 2 none 9).1 3 (some 1) 10 =
       handleAudio { stOpen with isTalking := true } 3 (some 1) 10) :=
  ⟨rfl, by norm_num,
   C3_decode_failure_drops_frame stOpen 2 3 (some 1) 9 10 rfl (by norm_num)⟩

end VoiceTasks
